import Mathlib

/-!
Verification of the request admission-control layer (rate limiter) of the
game-library repository.  The embedding models three pieces of the source:

* the in-memory limiter of rate-limit.service.ts (class RateLimitService),
* the Redis-backed limiter of rate-limit.guard.ts (class RedisRateLimitService)
  with its fixed-window, sliding-window and in-memory-fallback paths, where the
  Redis key space is modelled as association lists and the Math.random draws of
  the sliding path are passed in explicitly, and
* the route guard of the backend (class RateLimitGuard in the second guard file)
  that tries the Redis service and falls back to the in-memory one on error.

JavaScript numbers used as times and counters are modelled as Int; JavaScript
Map objects are modelled as association lists keyed by String.
-/

namespace GameLib

/-- Lookup in an association list (JavaScript Map.get). -/
def alookup {α : Type} : List (String × α) → String → Option α
  | [], _ => none
  | (k, v) :: rest, key => if k = key then some v else alookup rest key

/-- Insert or replace in an association list (JavaScript Map.set). -/
def ainsert {α : Type} (key : String) (v : α) : List (String × α) → List (String × α)
  | [] => [(key, v)]
  | (k, w) :: rest => if k = key then (k, v) :: rest else (k, w) :: ainsert key v rest

/-- Delete from an association list (JavaScript Map.delete). -/
def aerase {α : Type} (key : String) : List (String × α) → List (String × α)
  | [] => []
  | (k, w) :: rest => if k = key then aerase key rest else (k, w) :: aerase key rest

/-- The decision value returned by every checkLimit variant. -/
structure Decision where
  allowed : Bool
  remainingRequests : Int
  resetTime : Int
  blocked : Bool
deriving DecidableEq, Repr

/-- JavaScript truthiness of the optional blockDurationMs field:
undefined and 0 are falsy, every other number is truthy. -/
def jsTruthy : Option Int → Bool
  | none => false
  | some v => v != 0

/-- JavaScript value of the optional blockDurationMs field when used. -/
def jsVal : Option Int → Int
  | none => 0
  | some v => v

namespace RateLimitService

/-- A counter entry of the in-memory limiter (interface RateLimitEntry). -/
structure RateLimitEntry where
  count : Int
  resetTime : Int
deriving DecidableEq, Repr

/-- The config of the in-memory limiter (interface RateLimitConfig of
rate-limit.service.ts). -/
structure RateLimitConfig where
  windowMs : Int
  maxRequests : Int
  blockDurationMs : Option Int
deriving DecidableEq, Repr

/-- The mutable state of RateLimitService: the limits map and the
blockedKeys map (key to unblock time). -/
structure ServiceState where
  limits : List (String × RateLimitEntry)
  blockedKeys : List (String × Int)
deriving DecidableEq, Repr

/-- The part of RateLimitService.checkLimit after the block check:
entry lookup and lazy creation or reset, the limit comparison, the optional
block installation and the counter increment. -/
def checkCount (key : String) (config : RateLimitConfig) (now : Int) (s : ServiceState) :
    Decision × ServiceState :=
  let fresh : RateLimitEntry := { count := 0, resetTime := now + config.windowMs }
  let p : RateLimitEntry × List (String × RateLimitEntry) :=
    match alookup s.limits key with
    | some e => if now ≥ e.resetTime then (fresh, ainsert key fresh s.limits) else (e, s.limits)
    | none => (fresh, ainsert key fresh s.limits)
  let entry := p.1
  let limits1 := p.2
  if entry.count ≥ config.maxRequests then
    let blocked1 :=
      if jsTruthy config.blockDurationMs then
        ainsert key (now + jsVal config.blockDurationMs) s.blockedKeys
      else s.blockedKeys
    (⟨false, 0, entry.resetTime, jsTruthy config.blockDurationMs⟩,
      { limits := limits1, blockedKeys := blocked1 })
  else
    let e3 : RateLimitEntry := { count := entry.count + 1, resetTime := entry.resetTime }
    (⟨true, config.maxRequests - e3.count, e3.resetTime, false⟩,
      { limits := ainsert key e3 limits1, blockedKeys := s.blockedKeys })

/-- RateLimitService.checkLimit of rate-limit.service.ts: block check and
lazy unblock first, then the counting logic. -/
def checkLimit (key : String) (config : RateLimitConfig) (now : Int) (s : ServiceState) :
    Decision × ServiceState :=
  match alookup s.blockedKeys key with
  | some blockedUntil =>
    if now < blockedUntil then
      (⟨false, 0, blockedUntil, true⟩, s)
    else
      checkCount key config now { limits := s.limits, blockedKeys := aerase key s.blockedKeys }
  | none => checkCount key config now s

/-- A sequence of checkLimit calls for one key at the given times, collecting
the decisions and threading the state. -/
def runCalls (key : String) (config : RateLimitConfig) :
    List Int → ServiceState → List Decision × ServiceState
  | [], s => ([], s)
  | t :: ts, s =>
    let p := checkLimit key config t s
    let q := runCalls key config ts p.2
    (p.1 :: q.1, q.2)

end RateLimitService

namespace RedisRateLimitService

/-- The config of the Redis limiter (interface RateLimitConfig of
rate-limit.guard.ts), with the optional algorithm field. -/
inductive Algorithm
  | fixed
  | sliding
deriving DecidableEq, Repr

structure RLConfig where
  windowMs : Int
  maxRequests : Int
  blockDurationMs : Option Int
  algorithm : Option Algorithm
deriving DecidableEq, Repr

/-- A Redis string entry: the integer value held by the counter or block key
and its optional expiry timestamp in ms. -/
structure StrEntry where
  value : Int
  expireAt : Option Int
deriving DecidableEq, Repr

/-- A Redis sorted-set entry: the scored members and the optional expiry
timestamp in ms. -/
structure ZEntry where
  members : List (Int × String)
  expireAt : Option Int
deriving DecidableEq, Repr

/-- The Redis key space touched by the limiter: string keys and sorted-set
keys, with lazy expiry. -/
structure RedisState where
  strs : List (String × StrEntry)
  zsets : List (String × ZEntry)
deriving DecidableEq, Repr

/-- redis.get on a string key: the value if the key exists and has not
expired. -/
def liveStr (st : RedisState) (key : String) (now : Int) : Option Int :=
  match alookup st.strs key with
  | none => none
  | some e =>
    match e.expireAt with
    | none => some e.value
    | some t => if now < t then some e.value else none

/-- redis.ttl on a string key, in seconds (Redis rounds the remaining ms to
the nearest second; -1 means no expiry, -2 means missing). -/
def ttlSec (st : RedisState) (key : String) (now : Int) : Int :=
  match alookup st.strs key with
  | none => -2
  | some e =>
    match e.expireAt with
    | none => -1
    | some t => if now < t then (t - now + 500) / 1000 else -2

/-- redis.incr: increment the live value, or (re)create the key at 1 with no
expiry. -/
def redisIncr (st : RedisState) (key : String) (now : Int) : Int × RedisState :=
  match liveStr st key now with
  | some v =>
    let e : StrEntry :=
      { value := v + 1,
        expireAt := match alookup st.strs key with
                    | some old => old.expireAt
                    | none => none }
    (v + 1, { st with strs := ainsert key e st.strs })
  | none =>
    (1, { st with strs := ainsert key { value := 1, expireAt := none } st.strs })

/-- redis.expire on a string key, ttl given in seconds. -/
def redisExpire (st : RedisState) (key : String) (seconds now : Int) : RedisState :=
  match liveStr st key now with
  | some v =>
    { st with strs := ainsert key { value := v, expireAt := some (now + seconds * 1000) } st.strs }
  | none => st

/-- redis.setex on a string key, ttl given in seconds. -/
def redisSetex (st : RedisState) (key : String) (seconds value now : Int) : RedisState :=
  { st with strs := ainsert key { value := value, expireAt := some (now + seconds * 1000) } st.strs }

/-- The live member list of a sorted-set key (empty if expired or missing). -/
def zliveMembers (st : RedisState) (key : String) (now : Int) : List (Int × String) :=
  match alookup st.zsets key with
  | none => []
  | some e =>
    match e.expireAt with
    | none => e.members
    | some t => if now < t then e.members else []

/-- redis.zremrangebyscore key lo hi: drop the members whose score lies in
the closed range. -/
def zTrim (ms : List (Int × String)) (lo hi : Int) : List (Int × String) :=
  ms.filter (fun p => !(decide (lo ≤ p.1) && decide (p.1 ≤ hi)))

/-- redis.zadd: update the score of an existing member or append a new one. -/
def zAdd (ms : List (Int × String)) (score : Int) (member : String) : List (Int × String) :=
  if ms.any (fun p => p.2 = member) then
    ms.map (fun p => if p.2 = member then (score, member) else p)
  else ms ++ [(score, member)]

/-- redis.zrem: remove the member with the given name. -/
def zRem (ms : List (Int × String)) (member : String) : List (Int × String) :=
  ms.filter (fun p => !(decide (p.2 = member)))

/-- Math.ceil (x / 1000) for the nonnegative ms-to-seconds conversions of the
source. -/
def ceilMsToSec (x : Int) : Int := (x + 999) / 1000

/-- RedisRateLimitService.checkFixedWindowLimit: block check, pipelined
incr and expire, then the quota comparison with optional block
installation. -/
def checkFixedWindowLimit (key : String) (config : RLConfig) (st : RedisState) (now : Int) :
    Decision × RedisState :=
  let windowKey := "rate_limit:" ++ key
  let blockKey := "rate_limit_block:" ++ key
  match liveStr st blockKey now with
  | some _ =>
    (⟨false, 0, now + ttlSec st blockKey now * 1000, true⟩, st)
  | none =>
    let p := redisIncr st windowKey now
    let count := p.1
    let st2 := redisExpire p.2 windowKey (ceilMsToSec config.windowMs) now
    if count > config.maxRequests then
      let st3 :=
        if jsTruthy config.blockDurationMs then
          redisSetex st2 blockKey (ceilMsToSec (jsVal config.blockDurationMs)) 1 now
        else st2
      (⟨false, 0, now + config.windowMs, jsTruthy config.blockDurationMs⟩, st3)
    else
      (⟨true, config.maxRequests - count, now + config.windowMs, false⟩, st2)

/-- RedisRateLimitService.checkSlidingWindowLimit: block check, pipelined
trim, zcard, zadd of a random-suffixed member and expire, then the quota
comparison; on denial a compensating zrem whose member name is rebuilt with a
second Math.random draw.  The two Math.random draws are passed in as r1
(index used at insertion) and r2 (index used at removal). -/
def checkSlidingWindowLimit (key : String) (config : RLConfig) (st : RedisState) (now : Int)
    (r1 r2 : String) : Decision × RedisState :=
  let windowKey := "sliding_rate_limit:" ++ key
  let blockKey := "rate_limit_block:" ++ key
  let windowStart := now - config.windowMs
  match liveStr st blockKey now with
  | some _ =>
    (⟨false, 0, now + ttlSec st blockKey now * 1000, true⟩, st)
  | none =>
    let ms1 := zTrim (zliveMembers st windowKey now) 0 windowStart
    let count : Int := ms1.length
    let ms2 := zAdd ms1 now (toString now ++ "-" ++ r1)
    let expireAt := some (now + ceilMsToSec config.windowMs * 1000)
    let st1 := { st with zsets := ainsert windowKey { members := ms2, expireAt := expireAt } st.zsets }
    if count ≥ config.maxRequests then
      let ms3 := zRem ms2 (toString now ++ "-" ++ r2)
      let st2 := { st1 with zsets := ainsert windowKey { members := ms3, expireAt := expireAt } st1.zsets }
      let st3 :=
        if jsTruthy config.blockDurationMs then
          redisSetex st2 blockKey (ceilMsToSec (jsVal config.blockDurationMs)) 1 now
        else st2
      (⟨false, 0, now + config.windowMs, jsTruthy config.blockDurationMs⟩, st3)
    else
      (⟨true, config.maxRequests - count - 1, now + config.windowMs, false⟩, st1)

/-- A fallback entry of RedisRateLimitService (count, resetTime and the
unused requests array). -/
structure FallbackEntry where
  count : Int
  resetTime : Int
  requests : List Int
deriving DecidableEq, Repr

/-- RedisRateLimitService.checkFallbackLimit: the in-memory path taken when
Redis raises; pure fixed-window counting with no block handling. -/
def checkFallbackLimit (key : String) (config : RLConfig) (now : Int)
    (fb : List (String × FallbackEntry)) : Decision × List (String × FallbackEntry) :=
  let fresh : FallbackEntry := { count := 0, resetTime := now + config.windowMs, requests := [] }
  let p : FallbackEntry × List (String × FallbackEntry) :=
    match alookup fb key with
    | some e => if now ≥ e.resetTime then (fresh, ainsert key fresh fb) else (e, fb)
    | none => (fresh, ainsert key fresh fb)
  let entry := p.1
  let fb1 := p.2
  if entry.count ≥ config.maxRequests then
    (⟨false, 0, entry.resetTime, false⟩, fb1)
  else
    let e3 : FallbackEntry :=
      { count := entry.count + 1, resetTime := entry.resetTime, requests := entry.requests }
    (⟨true, config.maxRequests - e3.count, e3.resetTime, false⟩, ainsert key e3 fb1)

/-- RedisRateLimitService.checkLimit: input validation throws outside the
try block; inside it the configured algorithm runs against Redis, and any
store error (storeUp = false means every Redis operation raises) is caught
and answered by checkFallbackLimit. -/
def checkLimit (key : String) (config : RLConfig) (storeUp : Bool) (st : RedisState)
    (fb : List (String × FallbackEntry)) (now : Int) (r1 r2 : String) :
    Except String (Decision × RedisState × List (String × FallbackEntry)) :=
  if key = "" then .error "Rate limit key must be a non-empty string"
  else if config.windowMs ≤ 0 ∨ config.maxRequests ≤ 0 then
    .error "Invalid rate limit configuration"
  else if storeUp then
    if config.algorithm = some Algorithm.sliding then
      let p := checkSlidingWindowLimit key config st now r1 r2
      .ok (p.1, p.2, fb)
    else
      let p := checkFixedWindowLimit key config st now
      .ok (p.1, p.2, fb)
  else
    let p := checkFallbackLimit key config now fb
    .ok (p.1, st, p.2)

/-- RedisRateLimitService.getRemainingRequests: reads only the fixed-window
counter key rate_limit:key; on store error it reads the fallback map. -/
def getRemainingRequests (key : String) (maxRequests : Int) (storeUp : Bool) (st : RedisState)
    (fb : List (String × FallbackEntry)) (now : Int) : Int :=
  if storeUp then
    match liveStr st ("rate_limit:" ++ key) now with
    | none => maxRequests
    | some c => max 0 (maxRequests - c)
  else
    match alookup fb key with
    | none => maxRequests
    | some e => if now ≥ e.resetTime then maxRequests else max 0 (maxRequests - e.count)

/-- Whether an Except value is an error. -/
def isErr {ε α : Type} : Except ε α → Bool
  | .error _ => true
  | .ok _ => false

/-- A sequence of Redis checkLimit calls for one key at the given times,
collecting the per-call results and threading both stores. -/
def runCalls (key : String) (config : RLConfig) (storeUp : Bool) (r1 r2 : String) :
    List Int → RedisState → List (String × FallbackEntry) →
    List (Except String Decision) × RedisState × List (String × FallbackEntry)
  | [], st, fb => ([], st, fb)
  | t :: ts, st, fb =>
    match checkLimit key config storeUp st fb t r1 r2 with
    | .ok (d, st2, fb2) =>
      let q := runCalls key config storeUp r1 r2 ts st2 fb2
      (.ok d :: q.1, q.2)
    | .error e =>
      let q := runCalls key config storeUp r1 r2 ts st fb
      (.error e :: q.1, q.2)

end RedisRateLimitService

namespace RateLimitGuard

open RedisRateLimitService

/-- The rate-limit core of RateLimitGuard.canActivate in the dual-service
guard: try the Redis service, and on any error from it (validation errors
included) re-check with the in-memory RateLimitService. -/
def guardCheck (key : String) (config : RLConfig) (storeUp : Bool) (st : RedisState)
    (fb : List (String × FallbackEntry)) (mem : RateLimitService.ServiceState) (now : Int)
    (r1 r2 : String) :
    Decision × RedisState × List (String × FallbackEntry) × RateLimitService.ServiceState :=
  match RedisRateLimitService.checkLimit key config storeUp st fb now r1 r2 with
  | .ok (d, st2, fb2) => (d, st2, fb2, mem)
  | .error _ =>
    let p := RateLimitService.checkLimit key
      { windowMs := config.windowMs, maxRequests := config.maxRequests,
        blockDurationMs := config.blockDurationMs } now mem
    (p.1, st, fb, p.2)

end RateLimitGuard

/-- The decision trace a fixed-window policy with quota N and no penalty is
expected to produce: starting from counter value c, each call with c below N
is allowed with N - (c + 1) remaining requests, and every later call is
denied with 0 remaining; R is the reset time of the window. -/
def c1Expected (N R : Int) : Int → Nat → List Decision
  | _, 0 => []
  | c, n + 1 =>
    (if c < N then (⟨true, N - (c + 1), R, false⟩ : Decision) else ⟨false, 0, R, false⟩) ::
      c1Expected N R (if c < N then c + 1 else c) n

/-! ## Association-list lemmas -/

theorem alookup_ainsert_self {α : Type} (key : String) (v : α) (l : List (String × α)) :
    alookup (ainsert key v l) key = some v := by
  induction l with
  | nil => simp [ainsert, alookup]
  | cons hd tl ih =>
    obtain ⟨k, w⟩ := hd
    by_cases h : k = key
    · simp [ainsert, alookup, h]
    · simp [ainsert, alookup, h, ih]

theorem alookup_ainsert_ne {α : Type} (key key' : String) (v : α) (l : List (String × α))
    (h : key ≠ key') : alookup (ainsert key v l) key' = alookup l key' := by
  induction l with
  | nil => simp [ainsert, alookup, h]
  | cons hd tl ih =>
    obtain ⟨k, w⟩ := hd
    by_cases hk : k = key
    · subst hk
      simp [ainsert, alookup, h]
    · simp [ainsert, alookup, hk, ih]

theorem ainsert_ainsert {α : Type} (key : String) (v w : α) (l : List (String × α)) :
    ainsert key v (ainsert key w l) = ainsert key v l := by
  induction l with
  | nil => simp [ainsert]
  | cons hd tl ih =>
    obtain ⟨k, u⟩ := hd
    by_cases h : k = key
    · simp [ainsert, h]
    · simp [ainsert, h, ih]

/-! ## Step lemmas for the in-memory service -/

namespace RateLimitService

/-- One checkLimit step on a key whose entry is live and which is not
blocked, for a config without penalty. -/
theorem checkLimit_entry (key : String) (config : RateLimitConfig) (now : Int)
    (s : ServiceState) (c R : Int)
    (hb : alookup s.blockedKeys key = none)
    (he : alookup s.limits key = some ⟨c, R⟩)
    (hnow : now < R) (hnb : config.blockDurationMs = none) :
    checkLimit key config now s =
      if c ≥ config.maxRequests then (⟨false, 0, R, false⟩, s)
      else
        (⟨true, config.maxRequests - (c + 1), R, false⟩,
          { limits := ainsert key ⟨c + 1, R⟩ s.limits, blockedKeys := s.blockedKeys }) := by
  have hnot : ¬ now ≥ R := not_le.mpr hnow
  simp only [checkLimit, hb, checkCount, he, hnot, if_false, hnb, jsTruthy]
  split
  · simp
  · simp

/-- One checkLimit step on a fresh key (no entry, no block), for a config
without penalty. -/
theorem checkLimit_fresh (key : String) (config : RateLimitConfig) (now : Int)
    (s : ServiceState)
    (hb : alookup s.blockedKeys key = none)
    (he : alookup s.limits key = none)
    (hnb : config.blockDurationMs = none) :
    checkLimit key config now s =
      if (0 : Int) ≥ config.maxRequests then
        (⟨false, 0, now + config.windowMs, false⟩,
          { limits := ainsert key ⟨0, now + config.windowMs⟩ s.limits,
            blockedKeys := s.blockedKeys })
      else
        (⟨true, config.maxRequests - 1, now + config.windowMs, false⟩,
          { limits := ainsert key ⟨1, now + config.windowMs⟩ s.limits,
            blockedKeys := s.blockedKeys }) := by
  simp only [checkLimit, hb, checkCount, he, hnb, jsTruthy]
  split
  · simp
  · simp [ainsert_ainsert]

/-- The decisions of a call sequence within one live window, starting from an
existing entry with count c, follow the expected fixed-window trace. -/
theorem runCalls_entry (key : String) (N W R : Int) (ts : List Int) :
    ∀ (c : Int) (s : ServiceState),
      alookup s.blockedKeys key = none →
      alookup s.limits key = some ⟨c, R⟩ →
      (∀ t ∈ ts, t < R) →
      (runCalls key ⟨W, N, none⟩ ts s).1 = c1Expected N R c ts.length := by
  induction ts with
  | nil =>
    intro c s _ _ _
    simp [runCalls, c1Expected]
  | cons t ts ih =>
    intro c s hb he hts
    have hnow : t < R := hts t (by simp)
    have hstep := checkLimit_entry key ⟨W, N, none⟩ t s c R hb he hnow rfl
    by_cases hc : c ≥ N
    · rw [if_pos hc] at hstep
      have htail := ih c s hb he (fun t' ht' => hts t' (by simp [ht']))
      have hcn : ¬ c < N := not_lt.mpr hc
      simp [runCalls, hstep, htail, c1Expected, hcn]
    · rw [if_neg hc] at hstep
      have hcn : c < N := lt_of_not_ge hc
      have htail := ih (c + 1)
        { limits := ainsert key ⟨c + 1, R⟩ s.limits, blockedKeys := s.blockedKeys }
        hb (alookup_ainsert_self key ⟨c + 1, R⟩ s.limits)
        (fun t' ht' => hts t' (by simp [ht']))
      simp [runCalls, hstep, htail, c1Expected, hcn]

end RateLimitService

section ClaimC1

open RateLimitService

/-- Claim C1: for every policy with maxRequests = N at least 1 and no penalty
configured, a sequence of checkLimit calls for one fresh key within a single
window (every call time below the reset time established by the first call)
produces exactly the expected fixed-window trace: the first N calls are
allowed with remaining requests N - 1 down to 0 (so the N-th returns 0
remaining), and every further call, the (N+1)-th in particular, is denied
with 0 remaining requests. -/
theorem c1_fixed_window_exact_quota (key : String) (N W t0 : Int) (ts : List Int)
    (s : ServiceState)
    (hN : 1 ≤ N) (_hW : 0 < W)
    (hb : alookup s.blockedKeys key = none)
    (he : alookup s.limits key = none)
    (hts : ∀ t ∈ ts, t < t0 + W) :
    (runCalls key ⟨W, N, none⟩ (t0 :: ts) s).1 = c1Expected N (t0 + W) 0 (ts.length + 1) := by
  have hstep := checkLimit_fresh key ⟨W, N, none⟩ t0 s hb he rfl
  have h0 : ¬ (0 : Int) ≥ N := not_le.mpr (by omega)
  rw [if_neg h0] at hstep
  have htail := runCalls_entry key N W (t0 + W) ts 1
    { limits := ainsert key ⟨1, t0 + W⟩ s.limits, blockedKeys := s.blockedKeys }
    hb (alookup_ainsert_self key ⟨1, t0 + W⟩ s.limits) hts
  have h0N : (0 : Int) < N := by omega
  simp [runCalls, hstep, htail, c1Expected, h0N]

/-- Witness for claim C1 with N = 2, windowMs = 10 and three calls at times
0, 1 and 2 on a fresh key. -/
theorem c1_fixed_window_exact_quota_witness :
    ((1 : Int) ≤ 2 ∧ (0 : Int) < 10 ∧ (∀ t ∈ [(1 : Int), 2], t < 0 + 10)) ∧
      (runCalls "k" ⟨10, 2, none⟩ [0, 1, 2] ⟨[], []⟩).1 = c1Expected 2 (0 + 10) 0 3 := by
  exact ⟨⟨by decide, by decide, by decide⟩,
    c1_fixed_window_exact_quota "k" 2 10 0 [1, 2] ⟨[], []⟩ (by decide) (by decide) rfl rfl
      (by decide)⟩

end ClaimC1

section ClaimC7

open RateLimitService

/-- Claim C7: while a block is active for a key (now below blockedUntil),
checkLimit returns a denial with 0 remaining requests, blocked set, and
resetTime equal to the block expiry, for every config and every counter
state, and it leaves the whole service state unchanged — so nothing except
block expiry (or an explicit clear) can end the denial. -/
theorem c7_active_block_absolute (key : String) (config : RateLimitConfig) (now : Int)
    (s : ServiceState) (B : Int)
    (hb : alookup s.blockedKeys key = some B)
    (hnow : now < B) :
    checkLimit key config now s = (⟨false, 0, B, true⟩, s) := by
  simp [checkLimit, hb, hnow]

/-- Witness for claim C7: the key is blocked until 100 and queried at 50,
after its counting window (reset time 5) would already have reset. -/
theorem c7_active_block_absolute_witness :
    (alookup ([("k", (100 : Int))]) "k" = some 100 ∧ (50 : Int) < 100) ∧
      checkLimit "k" ⟨10, 3, some 100⟩ 50 ⟨[("k", ⟨7, 5⟩)], [("k", 100)]⟩ =
        (⟨false, 0, 100, true⟩, ⟨[("k", ⟨7, 5⟩)], [("k", 100)]⟩) := by
  exact ⟨⟨by decide, by decide⟩,
    c7_active_block_absolute "k" ⟨10, 3, some 100⟩ 50 ⟨[("k", ⟨7, 5⟩)], [("k", 100)]⟩ 100
      (by decide) (by decide)⟩

end ClaimC7

section ClaimC5

open RateLimitService

/-- Counterexample to claim C5 as stated: with windowMs = 10, maxRequests = 1
and a penalty of 100 ms, the key's window begins at time 0; the request at
time 11, later than 0 + 10, is nevertheless denied, because the denied
request at time 1 installed a block lasting past the window reset. -/
theorem c5_counterexample :
    (runCalls "k" ⟨10, 1, some 100⟩ [0, 1, 11] ⟨[], []⟩).1 =
        [⟨true, 0, 10, false⟩, ⟨false, 0, 10, true⟩, ⟨false, 0, 101, true⟩] ∧
      (0 : Int) + 10 < 11 ∧ (1 : Int) ≤ 1 := by
  decide

/-- Claim C5 as amended: under the fixed-window algorithm a key's counter
resets exactly at its stored reset time (windowStart + windowMs): a request
at or after that time is allowed given maxRequests at least 1, no matter how
exhausted the expired window was, provided no block is active for the key at
that time. -/
theorem c5_window_reset_allows (key : String) (config : RateLimitConfig) (now : Int)
    (s : ServiceState) (c R : Int)
    (hnb : ∀ B, alookup s.blockedKeys key = some B → B ≤ now)
    (hm : 1 ≤ config.maxRequests)
    (he : alookup s.limits key = some ⟨c, R⟩)
    (hr : R ≤ now) :
    (checkLimit key config now s).1 =
      ⟨true, config.maxRequests - 1, now + config.windowMs, false⟩ := by
  have h0 : ¬ (0 : Int) ≥ config.maxRequests := not_le.mpr (by omega)
  have hge : now ≥ R := hr
  cases hB : alookup s.blockedKeys key with
  | none =>
    simp [checkLimit, hB, checkCount, he, hge, h0]
  | some B =>
    have hBle : ¬ now < B := not_lt.mpr (hnb B hB)
    simp [checkLimit, hB, hBle, checkCount, he, hge, h0]

/-- Witness for the amended claim C5: the window that began at time 0 with
quota 1 was exhausted (count 1) and even saw denied requests; the request at
time 11 is allowed again. -/
theorem c5_window_reset_allows_witness :
    ((1 : Int) ≤ 1 ∧ alookup ([("k", (⟨1, 10⟩ : RateLimitEntry))]) "k" = some ⟨1, 10⟩ ∧
        (10 : Int) ≤ 11) ∧
      (checkLimit "k" ⟨10, 1, none⟩ 11 ⟨[("k", ⟨1, 10⟩)], []⟩).1 = ⟨true, 0, 21, false⟩ := by
  exact ⟨⟨by decide, by decide, by decide⟩,
    c5_window_reset_allows "k" ⟨10, 1, none⟩ 11 ⟨[("k", ⟨1, 10⟩)], []⟩ 1 10
      (by intro B hB; cases hB) (by decide) (by decide) (by decide)⟩

end ClaimC5

section ClaimC10

open RateLimitService

/-- Counterexample to claim C10 as stated: a denied call with no
blockDurationMs can still change the service state — here the key carries an
expired block (until 5, queried at 10), which the call deletes from the
blocked-keys map before denying. -/
theorem c10_counterexample :
    (checkLimit "k" ⟨10, 3, none⟩ 10 ⟨[("k", ⟨3, 20⟩)], [("k", 5)]⟩).1.allowed = false ∧
      (checkLimit "k" ⟨10, 3, none⟩ 10 ⟨[("k", ⟨3, 20⟩)], [("k", 5)]⟩).2 ≠
        ⟨[("k", ⟨3, 20⟩)], [("k", 5)]⟩ := by
  decide

/-- A denied checkCount step with maxRequests at least 1 and no penalty
leaves the state exactly unchanged. -/
theorem checkCount_denied_frame (key : String) (config : RateLimitConfig) (now : Int)
    (s : ServiceState)
    (hnb : config.blockDurationMs = none)
    (hm : 1 ≤ config.maxRequests)
    (hd : (checkCount key config now s).1.allowed = false) :
    (checkCount key config now s).2 = s := by
  have h0 : ¬ (0 : Int) ≥ config.maxRequests := not_le.mpr (by omega)
  cases hlk : alookup s.limits key with
  | none =>
    simp [checkCount, hlk, h0] at hd
  | some e =>
    by_cases hre : now ≥ e.resetTime
    · simp [checkCount, hlk, hre, h0] at hd
    · by_cases hc : e.count ≥ config.maxRequests
      · simp [checkCount, hlk, hre, hc, hnb, jsTruthy]
      · simp [checkCount, hlk, hre, hc] at hd

/-- Claim C10 as amended: for a config with maxRequests at least 1 and no
blockDurationMs, a denied checkLimit call leaves the counter map exactly
unchanged (so no stored count is ever pushed past the maxRequests it was
checked against), and leaves the blocked-keys map unchanged except that an
already-expired block entry for the key may be deleted. -/
theorem c10_denied_frame (key : String) (config : RateLimitConfig) (now : Int)
    (s : ServiceState)
    (hnb : config.blockDurationMs = none)
    (hm : 1 ≤ config.maxRequests)
    (hd : (checkLimit key config now s).1.allowed = false) :
    (checkLimit key config now s).2.limits = s.limits ∧
      ((checkLimit key config now s).2.blockedKeys = s.blockedKeys ∨
        (checkLimit key config now s).2.blockedKeys = aerase key s.blockedKeys) := by
  cases hB : alookup s.blockedKeys key with
  | none =>
    have heq : checkLimit key config now s = checkCount key config now s := by
      simp [checkLimit, hB]
    rw [heq] at hd ⊢
    have hfr := checkCount_denied_frame key config now s hnb hm hd
    rw [hfr]
    exact ⟨rfl, Or.inl rfl⟩
  | some B =>
    by_cases hlt : now < B
    · have heq : checkLimit key config now s = (⟨false, 0, B, true⟩, s) := by
        simp [checkLimit, hB, hlt]
      rw [heq]
      exact ⟨rfl, Or.inl rfl⟩
    · have heq : checkLimit key config now s =
          checkCount key config now { limits := s.limits, blockedKeys := aerase key s.blockedKeys } := by
        simp [checkLimit, hB, hlt]
      rw [heq] at hd ⊢
      have hfr := checkCount_denied_frame key config now
        { limits := s.limits, blockedKeys := aerase key s.blockedKeys } hnb hm hd
      rw [hfr]
      exact ⟨rfl, Or.inr rfl⟩

/-- Witness for the amended claim C10: the denied call at time 10 keeps the
counter map intact and only drops the expired block entry. -/
theorem c10_denied_frame_witness :
    ((1 : Int) ≤ 3 ∧
        (checkLimit "k" ⟨10, 3, none⟩ 10 ⟨[("k", ⟨3, 20⟩)], [("k", 5)]⟩).1.allowed = false) ∧
      ((checkLimit "k" ⟨10, 3, none⟩ 10 ⟨[("k", ⟨3, 20⟩)], [("k", 5)]⟩).2.limits =
          [("k", ⟨3, 20⟩)] ∧
        ((checkLimit "k" ⟨10, 3, none⟩ 10 ⟨[("k", ⟨3, 20⟩)], [("k", 5)]⟩).2.blockedKeys =
            [("k", 5)] ∨
          (checkLimit "k" ⟨10, 3, none⟩ 10 ⟨[("k", ⟨3, 20⟩)], [("k", 5)]⟩).2.blockedKeys =
            aerase "k" [("k", 5)])) := by
  exact ⟨⟨by decide, by decide⟩,
    c10_denied_frame "k" ⟨10, 3, none⟩ 10 ⟨[("k", ⟨3, 20⟩)], [("k", 5)]⟩ rfl (by decide)
      (by decide)⟩

end ClaimC10

/-! ## Lemmas for the Redis-backed service -/

namespace RedisRateLimitService

/-- Appending to a common prefix is injective on strings. -/
theorem string_append_left_cancel (s a b : String) (h : s ++ a = s ++ b) : a = b := by
  have hd : (s ++ a).data = (s ++ b).data := congrArg String.data h
  rw [String.data_append, String.data_append] at hd
  exact String.ext (List.append_cancel_left hd)

/-- With a valid key and config but every store operation raising, the Redis
checkLimit is exactly the fallback path wrapped in ok. -/
theorem checkLimit_storeDown (key : String) (config : RLConfig) (st : RedisState)
    (fb : List (String × FallbackEntry)) (now : Int) (r1 r2 : String)
    (hk : key ≠ "") (hw : 0 < config.windowMs) (hm : 0 < config.maxRequests) :
    checkLimit key config false st fb now r1 r2 =
      .ok ((checkFallbackLimit key config now fb).1, st,
        (checkFallbackLimit key config now fb).2) := by
  have h1 : ¬ (config.windowMs ≤ 0 ∨ config.maxRequests ≤ 0) := by
    push_neg
    exact ⟨hw, hm⟩
  simp [checkLimit, hk, h1]

/-- The fallback path never marks a denial as blocked. -/
theorem checkFallbackLimit_not_blocked (key : String) (config : RLConfig) (now : Int)
    (fb : List (String × FallbackEntry)) :
    (checkFallbackLimit key config now fb).1.blocked = false := by
  simp only [checkFallbackLimit]
  split
  · rfl
  · rfl

/-- The member zadd was called with is a member of its result. -/
theorem zAdd_self_mem (ms : List (Int × String)) (score : Int) (member : String) :
    (score, member) ∈ zAdd ms score member := by
  unfold zAdd
  split
  · rename_i h
    rw [List.any_eq_true] at h
    obtain ⟨p, hp, hpm⟩ := h
    refine List.mem_map.mpr ⟨p, hp, ?_⟩
    have hp2 : p.2 = member := of_decide_eq_true hpm
    simp [hp2]
  · exact List.mem_append_right _ (by simp)

end RedisRateLimitService

section ClaimC2

open RedisRateLimitService

/-- Counterexample to claim C2 as stated: the same two-request sequence (times
0 and 10, quota 1, penalty 5000 ms, fixed algorithm) produces a denial with
blocked = true through the remote path but a denial with blocked = false
through the store-failure path, so the local decision is not semantically
equivalent to the remote one. -/
theorem c2_counterexample :
    (runCalls "k" ⟨1000, 1, some 5000, none⟩ true "r" "s" [0, 10] ⟨[], []⟩ []).1 =
        [.ok ⟨true, 0, 1000, false⟩, .ok ⟨false, 0, 1010, true⟩] ∧
      (runCalls "k" ⟨1000, 1, some 5000, none⟩ false "r" "s" [0, 10] ⟨[], []⟩ []).1 =
        [.ok ⟨true, 0, 1000, false⟩, .ok ⟨false, 0, 1000, false⟩] := by
  exact ⟨rfl, rfl⟩

/-- Claim C2 as amended: when the Counter Store raises, the coordinator
answers from the local in-memory fallback map, which counts a plain fixed
window only — it ignores the configured algorithm and performs no block
checking or block setting, so its denials are never marked blocked; the
caller still receives a decision, but one not equivalent to the remote
path. -/
theorem c2_fallback_is_fixed_count_only (key : String) (config : RLConfig) (st : RedisState)
    (fb : List (String × FallbackEntry)) (now : Int) (r1 r2 : String)
    (hk : key ≠ "") (hw : 0 < config.windowMs) (hm : 0 < config.maxRequests) :
    checkLimit key config false st fb now r1 r2 =
        .ok ((checkFallbackLimit key config now fb).1, st,
          (checkFallbackLimit key config now fb).2) ∧
      (checkFallbackLimit key config now fb).1.blocked = false := by
  exact ⟨checkLimit_storeDown key config st fb now r1 r2 hk hw hm,
    checkFallbackLimit_not_blocked key config now fb⟩

/-- Witness for the amended claim C2 at a sliding-window config with a
penalty, where the remote path would block but the fallback never does. -/
theorem c2_fallback_is_fixed_count_only_witness :
    ("k" ≠ "" ∧ (0 : Int) < 1000 ∧ (0 : Int) < 1) ∧
      (checkLimit "k" ⟨1000, 1, some 5000, some Algorithm.sliding⟩ false ⟨[], []⟩ [] 0 "a" "b" =
          .ok ((checkFallbackLimit "k" ⟨1000, 1, some 5000, some Algorithm.sliding⟩ 0 []).1,
            ⟨[], []⟩,
            (checkFallbackLimit "k" ⟨1000, 1, some 5000, some Algorithm.sliding⟩ 0 []).2) ∧
        (checkFallbackLimit "k" ⟨1000, 1, some 5000, some Algorithm.sliding⟩ 0 []).1.blocked =
          false) := by
  exact ⟨⟨by decide, by decide, by decide⟩,
    c2_fallback_is_fixed_count_only "k" ⟨1000, 1, some 5000, some Algorithm.sliding⟩ ⟨[], []⟩ []
      0 "a" "b" (by decide) (by decide) (by decide)⟩

end ClaimC2

section ClaimC6

open RedisRateLimitService

/-- Claim C6: for every non-empty key and valid config, every call in an
arbitrary sequence of checkLimit calls still yields a Decision (no error
escapes) even when every remote store operation raises, from any store and
fallback state — repeated failures keep producing decisions. -/
theorem c6_store_failure_never_escapes (key : String) (config : RLConfig) (r1 r2 : String)
    (ts : List Int) (st : RedisState) (fb : List (String × FallbackEntry))
    (hk : key ≠ "") (hw : 0 < config.windowMs) (hm : 0 < config.maxRequests) :
    ∀ r ∈ (runCalls key config false r1 r2 ts st fb).1, isErr r = false := by
  induction ts generalizing st fb with
  | nil =>
    intro r hr
    simp [runCalls] at hr
  | cons t ts ih =>
    intro r hr
    have hstep := checkLimit_storeDown key config st fb t r1 r2 hk hw hm
    simp only [runCalls, hstep] at hr
    rcases List.mem_cons.mp hr with h | h
    · simp [h, isErr]
    · exact ih _ _ r h

/-- Witness for claim C6: four calls against an unreachable store all
produce decisions. -/
theorem c6_store_failure_never_escapes_witness :
    ("k" ≠ "" ∧ (0 : Int) < 10 ∧ (0 : Int) < 2) ∧
      (∀ r ∈ (runCalls "k" ⟨10, 2, none, none⟩ false "a" "b" [0, 1, 2, 3] ⟨[], []⟩ []).1,
        isErr r = false) := by
  exact ⟨⟨by decide, by decide, by decide⟩,
    c6_store_failure_never_escapes "k" ⟨10, 2, none, none⟩ "a" "b" [0, 1, 2, 3] ⟨[], []⟩ []
      (by decide) (by decide) (by decide)⟩

end ClaimC6

section ClaimC8

open RedisRateLimitService

/-- Counterexample to claim C8 as stated: with the invalid config
maxRequests = 0 the Redis checkLimit does raise, but the route guard catches
that very error and answers from the in-memory service, which performs no
validation — the caller receives a coerced Decision instead of the
propagated configuration error. -/
theorem c8_counterexample :
    checkLimit "k" ⟨10, 0, none, none⟩ true ⟨[], []⟩ [] 0 "a" "b" =
        .error "Invalid rate limit configuration" ∧
      (RateLimitGuard.guardCheck "k" ⟨10, 0, none, none⟩ true ⟨[], []⟩ [] ⟨[], []⟩ 0 "a" "b").1 =
        ⟨false, 0, 10, false⟩ := by
  exact ⟨rfl, rfl⟩

/-- Claim C8 as amended: the Redis checkLimit fails fast with an error
exactly when the key is empty or windowMs or maxRequests is nonpositive —
for every store state, time and store health; the error however is caught by
the route guard (see the counterexample), so it stops at the guard rather
than reaching the caller. -/
theorem c8_validation_error_iff (key : String) (config : RLConfig) (storeUp : Bool)
    (st : RedisState) (fb : List (String × FallbackEntry)) (now : Int) (r1 r2 : String) :
    isErr (checkLimit key config storeUp st fb now r1 r2) =
      (decide (key = "") || decide (config.windowMs ≤ 0 ∨ config.maxRequests ≤ 0)) := by
  by_cases h1 : key = ""
  · simp [checkLimit, h1, isErr]
  · by_cases h2 : config.windowMs ≤ 0 ∨ config.maxRequests ≤ 0
    · simp [checkLimit, h1, h2, isErr]
    · by_cases h3 : storeUp
      · simp only [checkLimit, if_neg h1, if_neg h2, h3, if_true]
        simp only [h1, h2, decide_eq_false, Bool.or_false]
        split
        · rfl
        · rfl
      · simp [checkLimit, h1, h2, h3, isErr]

end ClaimC8

section ClaimC4

open RedisRateLimitService

/-- Claim C4: in the sliding-window denial path the compensating delete is
built from a second Math.random draw (r2), not the draw used at insertion
(r1); whenever the two draws differ — as independent Math.random calls do —
the deletion target differs from the inserted member and the inserted
timestamp remains in the per-key sorted set of the resulting state. -/
theorem c4_phantom_timestamp_on_denial (key : String) (config : RLConfig) (st : RedisState)
    (now : Int) (r1 r2 : String)
    (hb : liveStr st ("rate_limit_block:" ++ key) now = none)
    (hr : r1 ≠ r2)
    (hd : (checkSlidingWindowLimit key config st now r1 r2).1.allowed = false) :
    (toString now ++ "-" ++ r2) ≠ (toString now ++ "-" ++ r1) ∧
      ∃ z, alookup ((checkSlidingWindowLimit key config st now r1 r2).2).zsets
          ("sliding_rate_limit:" ++ key) = some z ∧
        (now, toString now ++ "-" ++ r1) ∈ z.members := by
  have hne : (toString now ++ "-" ++ r2) ≠ (toString now ++ "-" ++ r1) := by
    intro h
    exact hr (string_append_left_cancel (toString now ++ "-") r2 r1 h).symm
  refine ⟨hne, ?_⟩
  by_cases hc : ((zTrim (zliveMembers st ("sliding_rate_limit:" ++ key) now) 0
      (now - config.windowMs)).length : Int) ≥ config.maxRequests
  · refine ⟨⟨zRem (zAdd (zTrim (zliveMembers st ("sliding_rate_limit:" ++ key) now) 0
        (now - config.windowMs)) now (toString now ++ "-" ++ r1)) (toString now ++ "-" ++ r2),
        some (now + ceilMsToSec config.windowMs * 1000)⟩, ?_, ?_⟩
    · simp only [checkSlidingWindowLimit, hb, hc, if_true]
      split
      · simp [redisSetex, alookup_ainsert_self]
      · simp [alookup_ainsert_self]
    · refine List.mem_filter.mpr ⟨zAdd_self_mem _ _ _, ?_⟩
      simp [hne.symm]
  · simp [checkSlidingWindowLimit, hb, hc] at hd

/-- Witness for claim C4: quota 1, one live timestamp at score 5, request at
time 6 with draws b and c; the denial leaves phantom member 6-b in the
set while the delete targeted 6-c. -/
theorem c4_phantom_timestamp_on_denial_witness :
    (liveStr ⟨[], [("sliding_rate_limit:k", ⟨[(5, "5-a")], none⟩)]⟩ "rate_limit_block:k" 6 =
          none ∧
        "b" ≠ "c" ∧
        (checkSlidingWindowLimit "k" ⟨10000, 1, none, some Algorithm.sliding⟩
            ⟨[], [("sliding_rate_limit:k", ⟨[(5, "5-a")], none⟩)]⟩ 6 "b" "c").1.allowed =
          false) ∧
      ((toString (6 : Int) ++ "-" ++ "c") ≠ (toString (6 : Int) ++ "-" ++ "b") ∧
        ∃ z, alookup ((checkSlidingWindowLimit "k" ⟨10000, 1, none, some Algorithm.sliding⟩
              ⟨[], [("sliding_rate_limit:k", ⟨[(5, "5-a")], none⟩)]⟩ 6 "b" "c").2).zsets
            "sliding_rate_limit:k" = some z ∧
          (6, toString (6 : Int) ++ "-" ++ "b") ∈ z.members) := by
  exact ⟨⟨rfl, by decide, rfl⟩,
    c4_phantom_timestamp_on_denial "k" ⟨10000, 1, none, some Algorithm.sliding⟩
      ⟨[], [("sliding_rate_limit:k", ⟨[(5, "5-a")], none⟩)]⟩ 6 "b" "c" rfl (by decide) rfl⟩

end ClaimC4

section ClaimC3

open RedisRateLimitService

/-- Evaluation of the sliding-window code at the failing input of claim C3:
with quota 1 and a live timestamp 5-a, the request at time 6 is denied,
yet the provisionally inserted member 6-b is NOT retracted — the
compensating delete targeted the freshly rebuilt member 6-c — so the stored
sorted set keeps both timestamps, contradicting the claimed invariant that a
denied request leaves no extra durable state. -/
theorem c3_provisional_insert_not_retracted :
    checkSlidingWindowLimit "k" ⟨10000, 1, none, some Algorithm.sliding⟩
        ⟨[], [("sliding_rate_limit:k", ⟨[(5, "5-a")], none⟩)]⟩ 6 "b" "c" =
      (⟨false, 0, 10006, false⟩,
        ⟨[], [("sliding_rate_limit:k", ⟨[(5, "5-a"), (6, "6-b")], some 10006⟩)]⟩) := by
  rfl

end ClaimC3

section ClaimC9

open RedisRateLimitService

/-- The block key and the fixed-window counter key never collide, for any
pair of user keys. -/
theorem blockKey_ne_counterKey (a b : String) :
    ("rate_limit_block:" ++ a) ≠ ("rate_limit:" ++ b) := by
  intro h
  have hd : ("rate_limit_block:" ++ a).data = ("rate_limit:" ++ b).data :=
    congrArg String.data h
  rw [String.data_append, String.data_append] at hd
  have h1 : "rate_limit_block:".data =
      ['r', 'a', 't', 'e', '_', 'l', 'i', 'm', 'i', 't', '_', 'b', 'l', 'o', 'c', 'k', ':'] := rfl
  have h2 : "rate_limit:".data =
      ['r', 'a', 't', 'e', '_', 'l', 'i', 'm', 'i', 't', ':'] := rfl
  rw [h1, h2] at hd
  simp only [List.cons_append, List.nil_append, List.cons.injEq] at hd
  exact absurd hd.2.2.2.2.2.2.2.2.2.2.1 (by decide)

/-- Claim C9: getRemainingRequests consults only the fixed-window counter
key; for a key with no fixed-window counter — in particular one whose
traffic all went through the sliding algorithm, which never writes that
key — it reports the full maxRequests, whatever the sliding timestamp set
holds, and a further sliding-window check preserves this. -/
theorem c9_remaining_ignores_sliding_traffic (key : String) (config : RLConfig)
    (st : RedisState) (fb : List (String × FallbackEntry)) (now now2 maxRequests : Int)
    (r1 r2 : String)
    (h : alookup st.strs ("rate_limit:" ++ key) = none) :
    alookup ((checkSlidingWindowLimit key config st now r1 r2).2).strs
        ("rate_limit:" ++ key) = none ∧
      getRemainingRequests key maxRequests true
        ((checkSlidingWindowLimit key config st now r1 r2).2) fb now2 = maxRequests := by
  have hkeys : ("rate_limit_block:" ++ key) ≠ ("rate_limit:" ++ key) :=
    blockKey_ne_counterKey key key
  have hstrs : alookup ((checkSlidingWindowLimit key config st now r1 r2).2).strs
      ("rate_limit:" ++ key) = none := by
    cases hB : liveStr st ("rate_limit_block:" ++ key) now with
    | some v => simp [checkSlidingWindowLimit, hB, h]
    | none =>
      by_cases hc : ((zTrim (zliveMembers st ("sliding_rate_limit:" ++ key) now) 0
          (now - config.windowMs)).length : Int) ≥ config.maxRequests
      · by_cases hbd : jsTruthy config.blockDurationMs = true
        · simp only [checkSlidingWindowLimit, hB, hc, if_true, hbd, redisSetex]
          rw [alookup_ainsert_ne _ _ _ _ hkeys]
          exact h
        · simp [checkSlidingWindowLimit, hB, hc, hbd, h]
      · simp [checkSlidingWindowLimit, hB, hc, h]
  refine ⟨hstrs, ?_⟩
  simp [getRemainingRequests, liveStr, hstrs]

/-- Witness for claim C9: three sliding-window events are stored for key k
and a further sliding check runs, yet the remaining count reported from the
fixed counter key is the full quota of 5. -/
theorem c9_remaining_ignores_sliding_traffic_witness :
    (alookup ((⟨[], [("sliding_rate_limit:k", ⟨[(1, "1-a"), (2, "2-b"), (3, "3-c")], none⟩)]⟩ :
          RedisState)).strs "rate_limit:k" = none) ∧
      (alookup ((checkSlidingWindowLimit "k" ⟨10000, 5, none, some Algorithm.sliding⟩
            ⟨[], [("sliding_rate_limit:k", ⟨[(1, "1-a"), (2, "2-b"), (3, "3-c")], none⟩)]⟩
            4 "d" "e").2).strs "rate_limit:k" = none ∧
        getRemainingRequests "k" 5 true
          ((checkSlidingWindowLimit "k" ⟨10000, 5, none, some Algorithm.sliding⟩
            ⟨[], [("sliding_rate_limit:k", ⟨[(1, "1-a"), (2, "2-b"), (3, "3-c")], none⟩)]⟩
            4 "d" "e").2) [] 4 = 5) := by
  exact ⟨rfl,
    c9_remaining_ignores_sliding_traffic "k" ⟨10000, 5, none, some Algorithm.sliding⟩
      ⟨[], [("sliding_rate_limit:k", ⟨[(1, "1-a"), (2, "2-b"), (3, "3-c")], none⟩)]⟩ [] 4 4 5
      "d" "e" rfl⟩

end ClaimC9

end GameLib
